import Mathlib

/-!
Shallow embedding of the registry of the logging library and level-management
engine (`src/logger/LoggerFactory.ts` and `src/logger/PackageLoggers.ts`).

JavaScript strings are modelled as lists of characters (`Str`), the JS `Map`
backing the logger registry as an association list with `Map.set` semantics
(replace in place, or append when absent), and JS object identity of logger
handles as a numeric stamp threaded through the state.  The external
`getLoggerPackage()` call (stack inspection plus filesystem walk) is an
oracle input to `create`; the model counts its invocations and the
invocations of `createRoot` so that memoization claims can be stated.
-/

namespace LoggingLib

/-- JS strings are modelled as lists of characters. -/
abbrev Str := List Char

/-- Coerce a Lean string literal into the string type of the model. -/
def str (s : String) : Str := s.data

/-- JS `s.startsWith(t)`. -/
def sStartsWith (s t : Str) : Bool := t.isPrefixOf s

/-- JS `s.endsWith(t)`. -/
def sEndsWith (s t : Str) : Bool := t.isSuffixOf s

/-- JS `s.slice(0, -1)`: drop the final character. -/
def sDropLast (s : Str) : Str := s.dropLast

/-- JS `s.substring(s.indexOf(c) + 1)` for a slash, as used on scoped
package names in `getOrCreatePackageLogger`. -/
def afterFirstSlash (s : Str) : Str := (s.dropWhile (· != '/')).drop 1

/-- JS `s.replaceAll(slash, underscore)`; the pattern is one character, so a
character map implements it. -/
def slashesToUnderscores (s : Str) : Str := s.map (fun c => if c = '/' then '_' else c)

/-- JS truthiness-based `a || b` where `a` is `string | undefined`: the empty
string and `undefined` are falsy. -/
def jsOr (a : Option Str) (b : Str) : Str :=
  match a with
  | some s => if s = [] then b else s
  | none => b

/-- One entry of `DevLoggerManager.levelMappings`. -/
structure LevelMapping where
  name : Str
  level : Str
deriving DecidableEq, Repr

/-- A pino logger object as the registry sees it: bound name, current level,
redaction paths (with remove semantics), the id of the root sink it is a
child of, and an identity stamp modelling JS object identity. -/
structure PinoLogger where
  name : Str
  level : Str
  redact : Option (List Str) := none
  parentId : Option Nat := none
  id : Nat
deriving DecidableEq, Repr

/-- The `Map<string, PinoLogger>` registry table, in insertion order. -/
abbrev LoggerMap := List (Str × PinoLogger)

/-- JS `Map.get`. -/
def mapGet (m : LoggerMap) (k : Str) : Option PinoLogger :=
  (m.find? (fun e => e.1 == k)).map (·.2)

/-- JS `Map.set`: replace the entry in place when the key is present,
otherwise append. -/
def mapSet (m : LoggerMap) (k : Str) (v : PinoLogger) : LoggerMap :=
  if m.any (fun e => e.1 == k) then
    m.map (fun e => if e.1 == k then (k, v) else e)
  else m ++ [(k, v)]

/-- The state of a `DevLoggerManager`: constructor arguments, the root
logger, the mapping table, the registry table, and the identity counter. -/
structure DevState where
  defaultLevel : Str
  logDestination : Option Str
  enablePretty : Bool
  enableCaller : Bool
  enablePkgNs : Bool
  rootLogger : PinoLogger
  levelMappings : List LevelMapping
  loggers : LoggerMap
  nextId : Nat
deriving Repr

/-- Source `DevLoggerManager.isPrefixMatch`. -/
def isPrefixMatch (name : Str) : Bool := sEndsWith name (str ("/*"))

/-- Source `DevLoggerManager.normalizePrefixMatch`. -/
def normalizePrefixMatch (name : Str) : Str :=
  if sEndsWith name (str ("/*")) then sDropLast name
  else if sEndsWith name (str ("/")) then name
  else name ++ str ("/")

/-- The predicate scanned by `DevLoggerManager.findMappingLevel`. -/
def matchesMapping (m : LevelMapping) (name : Str) : Bool :=
  if sEndsWith m.name (str ("/*")) then sStartsWith name (sDropLast m.name)
  else m.name == name

/-- Source `DevLoggerManager.findMappingLevel`: first match in registration order. -/
def findMappingLevel (ms : List LevelMapping) (name : Str) : Option Str :=
  (ms.find? (fun m => matchesMapping m name)).map (·.level)

/-- Source `DevLoggerManager.setChildrenLevel`: normalize the prefix, set the level
of each registered logger whose name starts with it, return the count. -/
def setChildrenLevel (s : DevState) (name level : Str) : DevState × Int :=
  let pfx := normalizePrefixMatch name
  let n := (s.loggers.filter (fun e => sStartsWith e.1 pfx)).length
  ({ s with loggers := s.loggers.map (fun e =>
      if sStartsWith e.1 pfx then (e.1, { e.2 with level := level }) else e) },
   (n : Int))

/-- Source `DevLoggerManager.setLevel`. -/
def setLevel (s : DevState) (name level : Str) : DevState :=
  if isPrefixMatch name then (setChildrenLevel s name level).1
  else
    match mapGet s.loggers name with
    | some _ => { s with loggers := s.loggers.map (fun e =>
        if e.1 == name then (e.1, { e.2 with level := level }) else e) }
    | none => s

/-- Source `DevLoggerManager.addLevelMapping`: push the mapping, then cascade. -/
def addLevelMapping (s : DevState) (name level : Str) : DevState :=
  let s1 := { s with levelMappings := s.levelMappings ++ [⟨name, level⟩] }
  if isPrefixMatch name then (setChildrenLevel s1 name level).1
  else setLevel s1 name level

/-- Source `DevLoggerManager.createRoot`: builds a fresh pino logger for the given
name.  The sink configuration (pretty transport, caller enrichment, file
destination) is opaque to the registry; the default level of pino applies to
the new root.  Only the identity counter of the state changes. -/
def createRoot (s : DevState) (name : Str) : DevState × PinoLogger :=
  let lg : PinoLogger := { name := name, level := str ("info"), id := s.nextId }
  ({ s with nextId := s.nextId + 1 }, lg)

/-- The package-name post-processing at the top of
`getOrCreatePackageLogger`: a scoped name (starting with an at-sign and
containing a slash) keeps only the part after the first slash, with the
remaining slashes replaced by underscores; an absent or empty result means
no package prefixing.  The argument is the value returned by the external
`getLoggerPackage()` call. -/
def resolvedPkgName (pkgRes : Option Str) : Option Str :=
  match pkgRes with
  | none => none
  | some p0 =>
    let p := if sStartsWith p0 (str ("@")) && p0.contains '/' then
               slashesToUnderscores (afterFirstSlash p0)
             else p0
    if p = [] then none else some p

/-- Source `DevLoggerManager.getOrCreatePackageLogger`.  The final component counts
`createRoot` invocations (one exactly on a cache miss). -/
def getOrCreatePackageLogger (s : DevState) (pkgRes : Option Str) :
    DevState × Option (PinoLogger × Str) × Nat :=
  match resolvedPkgName pkgRes with
  | none => (s, none, 0)
  | some p =>
    match mapGet s.loggers p with
    | some cached => (s, some (cached, p), 0)
    | none =>
      let (s1, lg) := createRoot s p
      ({ s1 with loggers := mapSet s1.loggers p lg }, some (lg, p), 1)

/-- The qualified name that `create` registers a logger under, given the
auto-prefixing flag and the package-resolution oracle value. -/
def qualifiedName (auto : Bool) (pkgRes : Option Str) (name : Str) : Str :=
  if auto then
    match resolvedPkgName pkgRes with
    | some p => p ++ str ("/") ++ name
    | none => name
  else name

/-- The `opts` argument of `create`. -/
structure CreateOpts where
  level : Option Str := none
  redact : Option (List Str) := none
deriving Repr

/-- Result of a `create` call: the new manager state, the returned handle,
and instrumentation counting `getLoggerPackage()` and `createRoot`
invocations performed during the call. -/
structure CreateOut where
  state : DevState
  logger : PinoLogger
  resolverCalls : Nat
  rootCreates : Nat
deriving Repr

/-- The tail of `DevLoggerManager.create` after the qualified name and root
sink have been determined: compute the effective level, build the child,
register it. -/
def createCore (s1 : DevState) (rootLg : PinoLogger) (qn : Str) (opts : CreateOpts) :
    DevState × PinoLogger :=
  let level := jsOr opts.level (jsOr (findMappingLevel s1.levelMappings qn) s1.defaultLevel)
  let child : PinoLogger :=
    { name := qn, level := level, redact := opts.redact,
      parentId := some rootLg.id, id := s1.nextId }
  ({ s1 with nextId := s1.nextId + 1, loggers := mapSet s1.loggers qn child }, child)

/-- Source `DevLoggerManager.create`.  `pkgRes` is the oracle value that the
external `getLoggerPackage()` call would return; it is consulted exactly
when package auto-prefixing is enabled. -/
def create (s : DevState) (pkgRes : Option Str) (name : Str) (opts : CreateOpts) : CreateOut :=
  if s.enablePkgNs then
    match getOrCreatePackageLogger s pkgRes with
    | (s1, some (plg, pname), nRoot) =>
      let out := createCore s1 plg (pname ++ str ("/") ++ name) opts
      { state := out.1, logger := out.2, resolverCalls := 1, rootCreates := nRoot }
    | (s1, none, nRoot) =>
      let out := createCore s1 s1.rootLogger name opts
      { state := out.1, logger := out.2, resolverCalls := 1, rootCreates := nRoot }
  else
    let out := createCore s s.rootLogger name opts
    { state := out.1, logger := out.2, resolverCalls := 0, rootCreates := 0 }

/-- The `DevLoggerManager` constructor: records the flags and builds the
root logger under the reserved root name. -/
def mkDev (defaultLevel : Str) (dest : Option Str) (pretty caller pkg : Bool) : DevState :=
  { defaultLevel := defaultLevel, logDestination := dest, enablePretty := pretty,
    enableCaller := caller, enablePkgNs := pkg,
    rootLogger := { name := str ("__ROOT__"), level := str ("info"), id := 0 },
    levelMappings := [], loggers := [], nextId := 1 }

/-- The state of a `LiveLoggerManager`: the fixed default level, the single
root sink, the warn records it has been asked to emit, and the identity
counter. -/
structure LiveState where
  defaultLevel : Str
  rootLogger : PinoLogger
  warnEvents : List (Nat × Str)
  nextId : Nat
deriving Repr

/-- The `LiveLoggerManager` constructor. -/
def mkLive (defaultLevel : Str) : LiveState :=
  { defaultLevel := defaultLevel,
    rootLogger := { name := [], level := defaultLevel, id := 0 },
    warnEvents := [], nextId := 1 }

/-- Source `LiveLoggerManager.setLevel`: ignores its arguments, warns on the root
logger, changes nothing else. -/
def liveSetLevel (s : LiveState) : LiveState :=
  { s with warnEvents := s.warnEvents ++
      [(s.rootLogger.id,
        str ("Unexpected LoggerFactory setting - setLevel is not supported for LIVE loggers"))] }

/-- Source `LiveLoggerManager.addLevelMapping`: same rejection shape. -/
def liveAddLevelMapping (s : LiveState) : LiveState :=
  { s with warnEvents := s.warnEvents ++
      [(s.rootLogger.id,
        str ("Unexpected LoggerFactory setting - addLevelMapping is not supported for LIVE loggers"))] }

/-- Source `LiveLoggerManager.setChildrenLevel`: warns and returns the sentinel. -/
def liveSetChildrenLevel (s : LiveState) : LiveState × Int :=
  ({ s with warnEvents := s.warnEvents ++
      [(s.rootLogger.id,
        str ("Unexpected LoggerFactory setting - setLevelCascade is not supported for LIVE loggers"))] },
   -1)

/-- Source `LiveLoggerManager.create`: explicit level or the fixed default; the
child always descends from the single root sink; nothing is registered. -/
def liveCreate (s : LiveState) (name : Str) (opts : CreateOpts) : LiveState × PinoLogger :=
  let level := jsOr opts.level s.defaultLevel
  let child : PinoLogger :=
    { name := name, level := level, redact := opts.redact,
      parentId := some s.rootLogger.id, id := s.nextId }
  ({ s with nextId := s.nextId + 1 }, child)

/-- The keys of the registry table. -/
def keys (m : LoggerMap) : List Str := m.map Prod.fst

/-- A development manager as constructed with auto-prefixing disabled,
used by concrete witnesses below. -/
def devNoNs : DevState := mkDev (str ("info")) none true false false

/-- A development manager as constructed with auto-prefixing enabled,
used by concrete witnesses below. -/
def devNs : DevState := mkDev (str ("info")) none true false true

/-! ### Basic lemmas about the embedded primitives -/

/-- A mapping whose pattern is the name itself always matches that name,
whether the pattern is exact or ends in the wildcard suffix. -/
lemma matches_self (nm L : Str) : matchesMapping ⟨nm, L⟩ nm = true := by
  unfold matchesMapping sStartsWith sDropLast
  split
  · exact Iff.mpr List.isPrefixOf_iff_prefix ( List.dropLast_prefix nm)
  · simp

/-- A wildcard mapping matches every name that starts with the pattern minus
its final character. -/
lemma matches_of_pfx (pm L n : Str) (hp : sEndsWith pm (str ("/*")) = true)
    (hs : sStartsWith n (sDropLast pm) = true) :
    matchesMapping ⟨pm, L⟩ n = true := by
  unfold matchesMapping
  simp [hp, hs]

lemma find?_cons_true {α : Type} (p : α → Bool) (a : α) (l : List α) (h : p a = true) :
    (a :: l).find? p = some a := by
  simp [List.find?, h]

lemma find?_cons_false {α : Type} (p : α → Bool) (a : α) (l : List α) (h : p a = false) :
    (a :: l).find? p = l.find? p := by
  simp [List.find?, h]

lemma filter_cons_true {α : Type} (p : α → Bool) (a : α) (l : List α) (h : p a = true) :
    (a :: l).filter p = a :: l.filter p := by
  simp [List.filter, h]

lemma filter_cons_false {α : Type} (p : α → Bool) (a : α) (l : List α) (h : p a = false) :
    (a :: l).filter p = l.filter p := by
  simp [List.filter, h]

/-- Scanning a mapping list whose first block has no match reduces to
scanning the rest. -/
lemma findMappingLevel_append_none (A B : List LevelMapping) (n : Str)
    (h : ∀ m ∈ A, matchesMapping m n = false) :
    findMappingLevel (A ++ B) n = findMappingLevel B n := by
  unfold findMappingLevel
  rw [List.find?_append]
  have hA : A.find? (fun m => matchesMapping m n) = none :=
    List.find?_eq_none.mpr (by intro x hx; simp [h x hx])
  rw [hA]
  rfl

/-- A matching head mapping is the one the linear scan returns. -/
lemma findMappingLevel_cons_pos (m : LevelMapping) (B : List LevelMapping) (n : Str)
    (h : matchesMapping m n = true) :
    findMappingLevel (m :: B) n = some m.level := by
  unfold findMappingLevel
  rw [find?_cons_true (fun m => matchesMapping m n) m B h]
  rfl

lemma jsOr_some (a b : Str) (h : a ≠ []) : jsOr (some a) b = a := by
  simp [jsOr, h]

lemma mapGet_replace_of_any (m : LoggerMap) (k : Str) (v : PinoLogger)
    (h : m.any (fun e => e.1 == k) = true) :
    mapGet (m.map (fun e => if e.1 == k then (k, v) else e)) k = some v := by
  induction m with
  | nil => simp at h
  | cons e t ih =>
    simp only [List.any_cons, Bool.or_eq_true] at h
    by_cases hk : (e.1 == k) = true
    · unfold mapGet
      rw [List.map_cons, if_pos hk,
        find?_cons_true (fun e => e.1 == k) (k, v) _ (by simp)]
      rfl
    · unfold mapGet at ih ⊢
      rw [List.map_cons, if_neg hk,
        find?_cons_false (fun e => e.1 == k) e _ (by simpa using hk)]
      exact ih (h.resolve_left hk)

lemma mapGet_append_single_self (m : LoggerMap) (k : Str) (v : PinoLogger)
    (h : m.any (fun e => e.1 == k) = false) :
    mapGet (m ++ [(k, v)]) k = some v := by
  unfold mapGet
  rw [List.find?_append]
  have h1 : m.find? (fun e => e.1 == k) = none :=
    List.find?_eq_none.mpr (by
      intro x hx
      have := List.any_eq_false.mp h x hx
      simpa using this)
  rw [h1, find?_cons_true (fun e => e.1 == k) (k, v) [] (by simp)]
  rfl

/-- `Map.set` followed by `Map.get` at the same key yields the new value. -/
lemma mapGet_set_self (m : LoggerMap) (k : Str) (v : PinoLogger) :
    mapGet (mapSet m k v) k = some v := by
  by_cases h : m.any (fun e => e.1 == k) = true
  · unfold mapSet
    rw [if_pos h]
    exact mapGet_replace_of_any m k v h
  · have hf : m.any (fun e => e.1 == k) = false := Bool.eq_false_iff.mpr h
    unfold mapSet
    rw [if_neg (by simp [hf])]
    exact mapGet_append_single_self m k v hf

lemma mapGet_replace_ne (m : LoggerMap) (k : Str) (v : PinoLogger) (l : Str)
    (hne : l ≠ k) :
    mapGet (m.map (fun e => if e.1 == k then (k, v) else e)) l = mapGet m l := by
  induction m with
  | nil => rfl
  | cons e t ih =>
    by_cases hk : (e.1 == k) = true
    · have hek : e.1 = k := by simpa using hk
      unfold mapGet at ih ⊢
      rw [List.map_cons, if_pos hk,
        find?_cons_false (fun e => e.1 == l) (k, v) _ (by simp [Ne.symm hne]),
        find?_cons_false (fun e => e.1 == l) e t (by simp [hek, Ne.symm hne])]
      exact ih
    · unfold mapGet at ih ⊢
      rw [List.map_cons, if_neg hk]
      by_cases hl : (e.1 == l) = true
      · rw [find?_cons_true (fun e => e.1 == l) e _ hl,
          find?_cons_true (fun e => e.1 == l) e t hl]
      · rw [find?_cons_false (fun e => e.1 == l) e _ (by simpa using hl),
          find?_cons_false (fun e => e.1 == l) e t (by simpa using hl)]
        exact ih

lemma mapGet_append_single_ne (m : LoggerMap) (k : Str) (v : PinoLogger) (l : Str)
    (hne : l ≠ k) :
    mapGet (m ++ [(k, v)]) l = mapGet m l := by
  unfold mapGet
  rw [List.find?_append]
  have h2 : List.find? (fun e => e.1 == l) [(k, v)] = none := by
    rw [find?_cons_false (fun e => e.1 == l) (k, v) [] (by simp [Ne.symm hne])]
    rfl
  rw [h2, Option.or_none]

/-- `Map.set` does not disturb lookups at other keys. -/
lemma mapGet_set_ne (m : LoggerMap) (k : Str) (v : PinoLogger) (l : Str)
    (hne : l ≠ k) :
    mapGet (mapSet m k v) l = mapGet m l := by
  unfold mapSet
  split
  · exact mapGet_replace_ne m k v l hne
  · exact mapGet_append_single_ne m k v l hne

lemma keys_replace (m : LoggerMap) (k : Str) (v : PinoLogger) :
    keys (m.map (fun e => if e.1 == k then (k, v) else e)) = keys m := by
  unfold keys
  rw [List.map_map]
  apply List.map_congr_left
  intro e _
  simp only [Function.comp]
  split
  · rename_i hc
    have h4 : e.1 = k := by simpa using hc
    exact h4.symm
  · rfl

/-- `Map.set` preserves the key-uniqueness invariant of the table. -/
lemma keys_set_nodup (m : LoggerMap) (k : Str) (v : PinoLogger)
    (h : (keys m).Nodup) : (keys (mapSet m k v)).Nodup := by
  by_cases ha : m.any (fun e => e.1 == k) = true
  · unfold mapSet
    rw [if_pos ha, keys_replace]
    exact h
  · have hfalse : m.any (fun e => e.1 == k) = false := Bool.eq_false_iff.mpr ha
    have hk : k ∉ keys m := by
      intro hmem
      obtain ⟨e, he, hek⟩ := List.mem_map.mp hmem
      have h6 := List.any_eq_false.mp hfalse e he
      exact h6 (by simp [hek])
    unfold mapSet
    rw [if_neg (by simp [hfalse])]
    unfold keys
    rw [List.map_append, List.nodup_append_comm]
    exact List.nodup_cons.mpr ⟨hk, h⟩

lemma mem_keys_of_mapGet (m : LoggerMap) (k : Str) (v : PinoLogger)
    (h : mapGet m k = some v) : k ∈ keys m := by
  unfold mapGet at h
  cases hf : m.find? (fun e => e.1 == k) with
  | none => rw [hf] at h; simp at h
  | some e =>
    have hm := List.mem_of_find?_eq_some hf
    have hp : e.1 = k := by simpa using List.find?_some hf
    exact hp ▸ List.mem_map_of_mem Prod.fst hm

/-- In a table with unique keys, a present key owns exactly one entry. -/
lemma filter_keyEq_length_one (m : LoggerMap) (k : Str)
    (hnd : (keys m).Nodup) (hmem : k ∈ keys m) :
    (m.filter (fun e => e.1 == k)).length = 1 := by
  induction m with
  | nil => simp [keys] at hmem
  | cons e t ih =>
    unfold keys at hnd hmem
    rw [List.map_cons] at hnd hmem
    rw [List.nodup_cons] at hnd
    by_cases hk : (e.1 == k) = true
    · have hek : e.1 = k := by simpa using hk
      rw [filter_cons_true (fun e => e.1 == k) e t hk]
      have hkt : k ∉ keys t := hek ▸ hnd.1
      have ht : t.filter (fun e => e.1 == k) = [] := by
        rw [List.filter_eq_nil_iff]
        intro a ha hak
        exact hkt (by
          have h5 : a.1 = k := by simpa using hak
          exact h5 ▸ List.mem_map_of_mem Prod.fst ha)
      rw [ht]
      rfl
    · have hmem2 : k ∈ keys t := by
        cases List.mem_cons.mp hmem with
        | inl h7 => exact absurd (by simp [h7]) hk
        | inr h7 => exact h7
      rw [filter_cons_false (fun e => e.1 == k) e t (by simpa using hk)]
      exact ih hnd.2 hmem2

/-- Lookup through a key-preserving conditional update of every entry. -/
lemma mapGet_map_keyCond (m : LoggerMap) (k : Str) (q : Str → Bool)
    (f : PinoLogger → PinoLogger) :
    mapGet (m.map (fun e => if q e.1 then (e.1, f e.2) else e)) k
      = (mapGet m k).map (fun lg => if q k then f lg else lg) := by
  induction m with
  | nil => rfl
  | cons e t ih =>
    have hkey : ((if q e.1 then (e.1, f e.2) else e).1) = e.1 := by split <;> rfl
    by_cases hk : (e.1 == k) = true
    · have hek : e.1 = k := by simpa using hk
      unfold mapGet
      rw [List.map_cons,
        find?_cons_true (fun e => e.1 == k) (if q e.1 then (e.1, f e.2) else e) _
          (by show ((if q e.1 then (e.1, f e.2) else e).1 == k) = true
              rw [hkey]; exact hk),
        find?_cons_true (fun e => e.1 == k) e t hk]
      by_cases hq : q e.1 = true
      · rw [if_pos hq]
        have hq2 : q k = true := hek ▸ hq
        simp [hq2]
      · rw [if_neg hq]
        have hq2 : q k = false := by rw [← hek]; simpa using hq
        simp [hq2]
    · unfold mapGet at ih ⊢
      rw [List.map_cons,
        find?_cons_false (fun e => e.1 == k) (if q e.1 then (e.1, f e.2) else e)
          (t.map (fun e => if q e.1 then (e.1, f e.2) else e))
          (by show ((if q e.1 then (e.1, f e.2) else e).1 == k) = false
              rw [hkey]; simpa using hk),
        find?_cons_false (fun e => e.1 == k) e t (by simpa using hk)]
      exact ih

/-! ### Case equations and frame lemmas for the manager operations -/

lemma getOrCreate_none (s : DevState) (pk : Option Str)
    (h : resolvedPkgName pk = none) :
    getOrCreatePackageLogger s pk = (s, none, 0) := by
  simp [getOrCreatePackageLogger, h]

lemma getOrCreate_hit (s : DevState) (pk : Option Str) (p : Str) (cached : PinoLogger)
    (hp : resolvedPkgName pk = some p) (hc : mapGet s.loggers p = some cached) :
    getOrCreatePackageLogger s pk = (s, some (cached, p), 0) := by
  simp [getOrCreatePackageLogger, hp, hc]

lemma getOrCreate_miss (s : DevState) (pk : Option Str) (p : Str)
    (hp : resolvedPkgName pk = some p) (hc : mapGet s.loggers p = none) :
    getOrCreatePackageLogger s pk =
      ({ s with
         nextId := s.nextId + 1,
         loggers := mapSet s.loggers p ⟨p, str ("info"), none, none, s.nextId⟩ },
       some (⟨p, str ("info"), none, none, s.nextId⟩, p), 1) := by
  simp [getOrCreatePackageLogger, createRoot, hp, hc]

lemma setChildrenLevel_levelMappings (s : DevState) (nm L : Str) :
    (setChildrenLevel s nm L).1.levelMappings = s.levelMappings := rfl

lemma setChildrenLevel_enable (s : DevState) (nm L : Str) :
    (setChildrenLevel s nm L).1.enablePkgNs = s.enablePkgNs := rfl

lemma setChildrenLevel_defaultLevel (s : DevState) (nm L : Str) :
    (setChildrenLevel s nm L).1.defaultLevel = s.defaultLevel := rfl

lemma setLevel_levelMappings (s : DevState) (nm L : Str) :
    (setLevel s nm L).levelMappings = s.levelMappings := by
  unfold setLevel
  split
  · rfl
  · split <;> rfl

lemma setLevel_enable (s : DevState) (nm L : Str) :
    (setLevel s nm L).enablePkgNs = s.enablePkgNs := by
  unfold setLevel
  split
  · rfl
  · split <;> rfl

lemma setLevel_defaultLevel (s : DevState) (nm L : Str) :
    (setLevel s nm L).defaultLevel = s.defaultLevel := by
  unfold setLevel
  split
  · rfl
  · split <;> rfl

/-- `addLevelMapping` appends exactly one mapping at the end of the table. -/
lemma addLevelMapping_levelMappings (s : DevState) (nm L : Str) :
    (addLevelMapping s nm L).levelMappings = s.levelMappings ++ [⟨nm, L⟩] := by
  unfold addLevelMapping
  split
  · rfl
  · rw [setLevel_levelMappings]

lemma addLevelMapping_enable (s : DevState) (nm L : Str) :
    (addLevelMapping s nm L).enablePkgNs = s.enablePkgNs := by
  unfold addLevelMapping
  split
  · rfl
  · rw [setLevel_enable]

lemma addLevelMapping_defaultLevel (s : DevState) (nm L : Str) :
    (addLevelMapping s nm L).defaultLevel = s.defaultLevel := by
  unfold addLevelMapping
  split
  · rfl
  · rw [setLevel_defaultLevel]

lemma createCore_loggers (s1 : DevState) (r : PinoLogger) (qn : Str) (o : CreateOpts) :
    (createCore s1 r qn o).1.loggers = mapSet s1.loggers qn (createCore s1 r qn o).2 := rfl

/-- The name a freshly created logger is registered under, the effective
level it receives, the redaction spec it carries, the frame on mapping and
configuration state, the resolver-invocation count, and the fact that the
registry lookup at the qualified name returns the new handle. -/
lemma create_spec (s : DevState) (pk : Option Str) (n : Str) (o : CreateOpts) :
    (create s pk n o).logger.name = qualifiedName s.enablePkgNs pk n
  ∧ (create s pk n o).logger.level
      = jsOr o.level (jsOr (findMappingLevel s.levelMappings
          (qualifiedName s.enablePkgNs pk n)) s.defaultLevel)
  ∧ (create s pk n o).logger.redact = o.redact
  ∧ (create s pk n o).state.levelMappings = s.levelMappings
  ∧ (create s pk n o).state.defaultLevel = s.defaultLevel
  ∧ (create s pk n o).state.enablePkgNs = s.enablePkgNs
  ∧ (create s pk n o).resolverCalls = (if s.enablePkgNs then 1 else 0)
  ∧ mapGet (create s pk n o).state.loggers (qualifiedName s.enablePkgNs pk n)
      = some (create s pk n o).logger := by
  by_cases ha : s.enablePkgNs = true
  · cases hp : resolvedPkgName pk with
    | none =>
      unfold create qualifiedName
      rw [ha, getOrCreate_none s pk hp, hp]
      exact ⟨rfl, rfl, rfl, rfl, rfl, ha, rfl, mapGet_set_self _ _ _⟩
    | some p =>
      cases hc : mapGet s.loggers p with
      | some cached =>
        unfold create qualifiedName
        rw [ha, getOrCreate_hit s pk p cached hp hc, hp]
        exact ⟨rfl, rfl, rfl, rfl, rfl, ha, rfl, mapGet_set_self _ _ _⟩
      | none =>
        unfold create qualifiedName
        rw [ha, getOrCreate_miss s pk p hp hc, hp]
        exact ⟨rfl, rfl, rfl, rfl, rfl, ha, rfl, mapGet_set_self _ _ _⟩
  · have ha2 : s.enablePkgNs = false := Bool.eq_false_iff.mpr ha
    unfold create qualifiedName
    rw [ha2]
    exact ⟨rfl, rfl, rfl, rfl, rfl, ha2, rfl, mapGet_set_self _ _ _⟩

/-- `create` preserves key uniqueness of the registry table. -/
lemma create_nodup (s : DevState) (pk : Option Str) (n : Str) (o : CreateOpts)
    (h : (keys s.loggers).Nodup) :
    (keys (create s pk n o).state.loggers).Nodup := by
  by_cases ha : s.enablePkgNs = true
  · cases hp : resolvedPkgName pk with
    | none =>
      unfold create
      rw [ha, getOrCreate_none s pk hp]
      exact keys_set_nodup _ _ _ h
    | some p =>
      cases hc : mapGet s.loggers p with
      | some cached =>
        unfold create
        rw [ha, getOrCreate_hit s pk p cached hp hc]
        exact keys_set_nodup _ _ _ h
      | none =>
        unfold create
        rw [ha, getOrCreate_miss s pk p hp hc]
        exact keys_set_nodup _ _ _ (keys_set_nodup _ _ _ h)
  · have ha2 : s.enablePkgNs = false := Bool.eq_false_iff.mpr ha
    unfold create
    rw [ha2]
    exact keys_set_nodup _ _ _ h

/-- The qualified name of a package-prefixed logger is strictly longer than
the package name, hence distinct from it. -/
lemma append_slash_ne (p n : Str) : p ++ str ("/") ++ n ≠ p := by
  intro h
  have hlen := congrArg List.length h
  have h1 : (str ("/")).length = 1 := rfl
  simp [List.length_append, h1] at hlen

/-- After any `create` under an enabled auto-prefix with a resolving package
name, the per-package root remains registered under the package key. -/
lemma create_pkg_present (s : DevState) (pk : Option Str) (n : Str) (o : CreateOpts)
    (p : Str) (ha : s.enablePkgNs = true) (hp : resolvedPkgName pk = some p) :
    (mapGet (create s pk n o).state.loggers p).isSome = true := by
  have hne : p ≠ p ++ str ("/") ++ n := fun h => append_slash_ne p n h.symm
  cases hc : mapGet s.loggers p with
  | some cached =>
    unfold create
    rw [ha, getOrCreate_hit s pk p cached hp hc]
    show (mapGet (createCore s cached (p ++ str ("/") ++ n) o).1.loggers p).isSome = true
    rw [createCore_loggers, mapGet_set_ne _ _ _ _ hne, hc]
    rfl
  | none =>
    unfold create
    rw [ha, getOrCreate_miss s pk p hp hc]
    show (mapGet (createCore
        { s with
          nextId := s.nextId + 1,
          loggers := mapSet s.loggers p ⟨p, str ("info"), none, none, s.nextId⟩ }
        ⟨p, str ("info"), none, none, s.nextId⟩ (p ++ str ("/") ++ n) o).1.loggers p).isSome = true
    rw [createCore_loggers, mapGet_set_ne _ _ _ _ hne]
    show (mapGet (mapSet s.loggers p ⟨p, str ("info"), none, none, s.nextId⟩) p).isSome = true
    rw [mapGet_set_self]
    rfl

/-- A `create` that finds the per-package root already cached performs no
`createRoot` call. -/
lemma create_rootCreates_of_hit (s : DevState) (pk : Option Str) (n : Str)
    (o : CreateOpts) (p : Str) (ha : s.enablePkgNs = true)
    (hp : resolvedPkgName pk = some p) (hc : (mapGet s.loggers p).isSome = true) :
    (create s pk n o).rootCreates = 0 := by
  cases hcc : mapGet s.loggers p with
  | none => rw [hcc] at hc; simp at hc
  | some cached =>
    unfold create
    rw [ha, getOrCreate_hit s pk p cached hp hcc]
    rfl

/-- When auto-prefixing is enabled, every `create` call invokes the
package resolver exactly once. -/
lemma create_resolverCalls_one (s : DevState) (pk : Option Str) (n : Str)
    (o : CreateOpts) (ha : s.enablePkgNs = true) :
    (create s pk n o).resolverCalls = 1 := by
  have h := (create_spec s pk n o).2.2.2.2.2.2.1
  rw [ha] at h
  simpa using h

/-- The normalized prefix always ends with the separator. -/
lemma normalize_endsWith_slash (nm : Str) :
    sEndsWith (normalizePrefixMatch nm) (str ("/")) = true := by
  have hws : str ("/*") = ['/', '*'] := rfl
  have hs : str ("/") = ['/'] := rfl
  unfold normalizePrefixMatch
  by_cases h1 : sEndsWith nm (str ("/*")) = true
  · rw [if_pos h1]
    unfold sEndsWith at h1
    unfold sEndsWith sDropLast
    rw [hws] at h1
    rw [hs]
    obtain ⟨u, hu⟩ := List.isSuffixOf_iff_suffix.mp h1
    apply List.isSuffixOf_iff_suffix.mpr
    rw [← hu]
    have : u ++ ['/', '*'] = (u ++ ['/']) ++ ['*'] := by simp
    rw [this, List.dropLast_concat]
    exact List.suffix_append u ['/']
  · rw [if_neg h1]
    by_cases h2 : sEndsWith nm (str ("/")) = true
    · rw [if_pos h2]
      exact h2
    · rw [if_neg h2]
      unfold sEndsWith
      rw [hs]
      apply List.isSuffixOf_iff_suffix.mpr
      exact List.suffix_append nm ['/']

/-! ### Claim C1 -/

/-- Claim C1, counterexample: with prefix mappings registered in the order
`svc/*` then `svc/a/*`, a logger created as `svc/a/x` receives the level of
the first-registered matching mapping (`warn`), not of the most recently
registered one (`error`), refuting the claim as stated. -/
theorem c1_counterexample :
    (create (addLevelMapping (addLevelMapping devNoNs
        (str ("svc/*")) (str ("warn"))) (str ("svc/a/*")) (str ("error")))
        none (str ("svc/a/x")) { level := none, redact := none }).logger.level = str ("warn")
    ∧ str ("warn") ≠ str ("error") := by
  decide

/-- Claim C1 (amended): when two or more prefix level-mappings match a
qualified logger name, a logger created with that name and no explicit
`opts.level` receives the level of the *earliest*-registered matching
mapping (the linear scan takes the first match in registration order). -/
theorem c1_first_registered_prefix_wins
    (s : DevState) (p1 p2 L1 L2 : Str) (pk : Option Str) (n : Str)
    (r : Option (List Str))
    (hp1 : sEndsWith p1 (str ("/*")) = true)
    (hL1 : L1 ≠ [])
    (hqn : sStartsWith (qualifiedName s.enablePkgNs pk n) (sDropLast p1) = true)
    (hno : ∀ m ∈ s.levelMappings,
        matchesMapping m (qualifiedName s.enablePkgNs pk n) = false) :
    (create (addLevelMapping (addLevelMapping s p1 L1) p2 L2) pk n
        { level := none, redact := r }).logger.level = L1 := by
  have hflag : (addLevelMapping (addLevelMapping s p1 L1) p2 L2).enablePkgNs
      = s.enablePkgNs := by
    rw [addLevelMapping_enable, addLevelMapping_enable]
  have hmaps : (addLevelMapping (addLevelMapping s p1 L1) p2 L2).levelMappings
      = s.levelMappings ++ ([⟨p1, L1⟩] ++ [⟨p2, L2⟩]) := by
    rw [addLevelMapping_levelMappings, addLevelMapping_levelMappings,
      List.append_assoc]
  have hlvl := (create_spec (addLevelMapping (addLevelMapping s p1 L1) p2 L2)
      pk n { level := none, redact := r }).2.1
  rw [hlvl, hflag, hmaps, findMappingLevel_append_none _ _ _ hno,
    List.singleton_append,
    findMappingLevel_cons_pos _ _ _
      (matches_of_pfx p1 L1 (qualifiedName s.enablePkgNs pk n) hp1 hqn)]
  show jsOr (some L1) _ = L1
  exact jsOr_some L1 _ hL1

/-- Witness for the amended C1 theorem at a concrete manager state. -/
theorem c1_amended_witness :
    (create (addLevelMapping (addLevelMapping devNoNs
        (str ("svc/*")) (str ("warn"))) (str ("svc/a/*")) (str ("error")))
        none (str ("svc/a/x")) { level := none, redact := none }).logger.level
      = str ("warn") :=
  c1_first_registered_prefix_wins devNoNs (str ("svc/*")) (str ("svc/a/*"))
    (str ("warn")) (str ("error")) none (str ("svc/a/x")) none
    (by decide) (by decide) (by decide) (by decide)

/-! ### Claim C2 -/

/-- Claim C2, counterexample: with a prefix mapping `svc/*` registered
before an exact mapping `svc/a`, a logger created as `svc/a` receives the
prefix mapping level (`warn`), not the exact mapping level (`error`), so
the exact mapping does not take precedence regardless of registration
order. -/
theorem c2_counterexample :
    (create (addLevelMapping (addLevelMapping devNoNs
        (str ("svc/*")) (str ("warn"))) (str ("svc/a")) (str ("error")))
        none (str ("svc/a")) { level := none, redact := none }).logger.level = str ("warn")
    ∧ str ("warn") ≠ str ("error") := by
  decide

/-- Claim C2 (amended): the linear scan returns the earliest-registered
matching mapping whether exact or prefix; in particular an exact mapping for
the qualified name wins over a prefix mapping only when the exact mapping
was registered first, as proved here. -/
theorem c2_exact_registered_first_wins
    (s : DevState) (pk : Option Str) (n p2 L1 L2 : Str) (r : Option (List Str))
    (qn : Str) (hqn : qn = qualifiedName s.enablePkgNs pk n)
    (hL1 : L1 ≠ [])
    (hno : ∀ m ∈ s.levelMappings, matchesMapping m qn = false) :
    (create (addLevelMapping (addLevelMapping s qn L1) p2 L2) pk n
        { level := none, redact := r }).logger.level = L1 := by
  subst hqn
  have hflag : (addLevelMapping (addLevelMapping s
      (qualifiedName s.enablePkgNs pk n) L1) p2 L2).enablePkgNs
      = s.enablePkgNs := by
    rw [addLevelMapping_enable, addLevelMapping_enable]
  have hmaps : (addLevelMapping (addLevelMapping s
      (qualifiedName s.enablePkgNs pk n) L1) p2 L2).levelMappings
      = s.levelMappings
        ++ ([⟨qualifiedName s.enablePkgNs pk n, L1⟩] ++ [⟨p2, L2⟩]) := by
    rw [addLevelMapping_levelMappings, addLevelMapping_levelMappings,
      List.append_assoc]
  have hlvl := (create_spec (addLevelMapping (addLevelMapping s
      (qualifiedName s.enablePkgNs pk n) L1) p2 L2)
      pk n { level := none, redact := r }).2.1
  rw [hlvl, hflag, hmaps, findMappingLevel_append_none _ _ _ hno,
    List.singleton_append,
    findMappingLevel_cons_pos _ _ _
      (matches_self (qualifiedName s.enablePkgNs pk n) L1)]
  show jsOr (some L1) _ = L1
  exact jsOr_some L1 _ hL1

/-- Witness for the amended C2 theorem at a concrete manager state. -/
theorem c2_amended_witness :
    (create (addLevelMapping (addLevelMapping devNoNs
        (str ("svc/a")) (str ("error"))) (str ("svc/*")) (str ("warn")))
        none (str ("svc/a")) { level := none, redact := none }).logger.level
      = str ("error") :=
  c2_exact_registered_first_wins devNoNs none (str ("svc/a")) (str ("svc/*"))
    (str ("error")) (str ("warn")) none (str ("svc/a")) (by decide) (by decide)
    (by decide)

/-! ### Claim C3 -/

/-- Claim C3, counterexample: the production manager honours an explicit
`opts.level`: a logger created with `level: debug` under default `info` has
effective level `debug`, refuting the claim that every logger is bound to
the fixed process default for every `opts` argument. -/
theorem c3_counterexample :
    (liveCreate (mkLive (str ("info"))) (str ("x"))
        { level := some (str ("debug")), redact := none }).2.level = str ("debug")
    ∧ str ("debug") ≠ str ("info") := by
  decide

/-- Claim C3 (amended): a production logger is bound to the explicit
`opts.level` when one is passed (and non-empty); otherwise it is bound to
the fixed process default; in all cases it descends from the single
platform-tracing root sink. -/
theorem c3_live_level_explicit_or_default
    (s : LiveState) (n l : Str) (r : Option (List Str)) (hl : l ≠ []) :
    (liveCreate s n { level := some l, redact := r }).2.level = l
    ∧ (liveCreate s n { level := none, redact := r }).2.level = s.defaultLevel
    ∧ (liveCreate s n { level := some l, redact := r }).2.parentId
        = some s.rootLogger.id
    ∧ (liveCreate s n { level := none, redact := r }).2.parentId
        = some s.rootLogger.id := by
  refine ⟨?_, rfl, rfl, rfl⟩
  show jsOr (some l) s.defaultLevel = l
  exact jsOr_some l _ hl

/-- Witness for the amended C3 theorem at a concrete manager state. -/
theorem c3_amended_witness :
    (liveCreate (mkLive (str ("info"))) (str ("x"))
        { level := some (str ("debug")), redact := none }).2.level = str ("debug") :=
  (c3_live_level_explicit_or_default (mkLive (str ("info"))) (str ("x"))
    (str ("debug")) none (by decide)).1

/-! ### Claim C4 -/

/-- Claim C4, counterexample: two successive `create` calls from the same
calling package each invoke the package resolver once — two invocations in
total — refuting the claim that the resolver runs at most once per distinct
calling package. -/
theorem c4_counterexample :
    (create devNs (some (str ("mypkg"))) (str ("a"))
        { level := none, redact := none }).resolverCalls
      + (create (create devNs (some (str ("mypkg"))) (str ("a"))
          { level := none, redact := none }).state
          (some (str ("mypkg"))) (str ("b"))
          { level := none, redact := none }).resolverCalls = 2
    ∧ ¬ ((create devNs (some (str ("mypkg"))) (str ("a"))
        { level := none, redact := none }).resolverCalls
      + (create (create devNs (some (str ("mypkg"))) (str ("a"))
          { level := none, redact := none }).state
          (some (str ("mypkg"))) (str ("b"))
          { level := none, redact := none }).resolverCalls ≤ 1) := by
  decide

/-- Claim C4 (amended): with auto-prefixing enabled the resolver
(`getLoggerPackage`, stack inspection plus filesystem walk) is invoked on
*every* `create` call — once per call, not once per package; what is
memoized in the registry table is the per-package root sink, so the second
`create` from the same package performs no `createRoot` call. -/
theorem c4_resolver_each_call_root_memoized
    (s : DevState) (pk : Option Str) (p : Str) (n1 n2 : Str)
    (o1 o2 : CreateOpts)
    (hauto : s.enablePkgNs = true) (hp : resolvedPkgName pk = some p) :
    (create s pk n1 o1).resolverCalls = 1
    ∧ (create (create s pk n1 o1).state pk n2 o2).resolverCalls = 1
    ∧ (create (create s pk n1 o1).state pk n2 o2).rootCreates = 0 := by
  have hflag : (create s pk n1 o1).state.enablePkgNs = true := by
    rw [(create_spec s pk n1 o1).2.2.2.2.2.1]
    exact hauto
  exact ⟨create_resolverCalls_one s pk n1 o1 hauto,
    create_resolverCalls_one _ pk n2 o2 hflag,
    create_rootCreates_of_hit _ pk n2 o2 p hflag hp
      (create_pkg_present s pk n1 o1 p hauto hp)⟩

/-- Witness for the amended C4 theorem at a concrete manager state. -/
theorem c4_amended_witness :
    (create (create devNs (some (str ("mypkg"))) (str ("a"))
        ⟨none, none⟩).state (some (str ("mypkg"))) (str ("b"))
        ⟨none, none⟩).rootCreates = 0 :=
  (c4_resolver_each_call_root_memoized devNs (some (str ("mypkg")))
    (str ("mypkg")) (str ("a")) (str ("b")) ⟨none, none⟩ ⟨none, none⟩
    (by decide) (by decide)).2.2

/-! ### Claim C5 -/

/-- Claim C5 (confirmed): registering a prefix mapping leaves the registry
table in exactly the state a direct cascading update would produce — every
already-registered logger matching the prefix ends at the mapped level — and
a logger created afterwards whose qualified name matches the prefix (with no
explicit level and no other mapping matching it) starts at the mapped
level. -/
theorem c5_mapping_cascade_equivalence
    (s : DevState) (p L : Str) (pk : Option Str) (n : Str)
    (r : Option (List Str))
    (hp : isPrefixMatch p = true) (hL : L ≠ [])
    (hqn : sStartsWith (qualifiedName s.enablePkgNs pk n) (sDropLast p) = true)
    (hno : ∀ m ∈ s.levelMappings,
        matchesMapping m (qualifiedName s.enablePkgNs pk n) = false) :
    (addLevelMapping s p L).loggers = (setChildrenLevel s p L).1.loggers
    ∧ (∀ e ∈ (addLevelMapping s p L).loggers,
        sStartsWith e.1 (normalizePrefixMatch p) = true → e.2.level = L)
    ∧ (create (addLevelMapping s p L) pk n
        { level := none, redact := r }).logger.level = L := by
  have ha : (addLevelMapping s p L).loggers
      = s.loggers.map (fun e =>
          if sStartsWith e.1 (normalizePrefixMatch p) then
            (e.1, { e.2 with level := L }) else e) := by
    unfold addLevelMapping
    rw [if_pos hp]
    rfl
  refine ⟨by rw [ha]; rfl, ?_, ?_⟩
  · intro e he hstart
    rw [ha] at he
    obtain ⟨e0, he0, rfl⟩ := List.mem_map.mp he
    by_cases hc : sStartsWith e0.1 (normalizePrefixMatch p) = true
    · rw [if_pos hc]
    · rw [if_neg hc] at hstart
      exact absurd hstart hc
  · have hflag : (addLevelMapping s p L).enablePkgNs = s.enablePkgNs :=
      addLevelMapping_enable s p L
    have hm : (addLevelMapping s p L).levelMappings
        = s.levelMappings ++ [⟨p, L⟩] := addLevelMapping_levelMappings s p L
    have hlvl := (create_spec (addLevelMapping s p L) pk n
        { level := none, redact := r }).2.1
    rw [hlvl, hflag, hm, findMappingLevel_append_none _ _ _ hno,
      findMappingLevel_cons_pos _ _ _
        (matches_of_pfx p L (qualifiedName s.enablePkgNs pk n) hp hqn)]
    show jsOr (some L) _ = L
    exact jsOr_some L _ hL

/-- Witness for the C5 theorem at a concrete manager state holding one
already-created logger under the prefix. -/
theorem c5_witness :
    (create (addLevelMapping
        (create devNoNs none (str ("svc/a")) ⟨none, none⟩).state
        (str ("svc/*")) (str ("warn"))) none (str ("svc/c"))
        { level := none, redact := none }).logger.level = str ("warn") :=
  (c5_mapping_cascade_equivalence
    (create devNoNs none (str ("svc/a")) ⟨none, none⟩).state
    (str ("svc/*")) (str ("warn")) none (str ("svc/c")) none
    (by decide) (by decide) (by decide) (by decide)).2.2

/-! ### Claim C6 -/

/-- Claim C6 (confirmed): `setChildrenLevel` normalizes the prefix (strips a
trailing wildcard, ensures a trailing separator), sets the level of exactly
the registered loggers whose qualified name starts with the normalized
prefix, returns the number of such loggers, and leaves every other logger
and all remaining registry state unchanged. -/
theorem c6_setChildrenLevel_frame (s : DevState) (nm L : Str) :
    (setChildrenLevel s nm L).2
      = ((s.loggers.filter (fun e =>
          sStartsWith e.1 (normalizePrefixMatch nm))).length : Int)
    ∧ (∀ k, sStartsWith k (normalizePrefixMatch nm) = true →
        mapGet (setChildrenLevel s nm L).1.loggers k
          = (mapGet s.loggers k).map (fun lg => { lg with level := L }))
    ∧ (∀ k, sStartsWith k (normalizePrefixMatch nm) = false →
        mapGet (setChildrenLevel s nm L).1.loggers k = mapGet s.loggers k)
    ∧ (setChildrenLevel s nm L).1.levelMappings = s.levelMappings
    ∧ (setChildrenLevel s nm L).1.defaultLevel = s.defaultLevel
    ∧ (setChildrenLevel s nm L).1.rootLogger = s.rootLogger
    ∧ (setChildrenLevel s nm L).1.nextId = s.nextId
    ∧ sEndsWith (normalizePrefixMatch nm) (str ("/")) = true
    ∧ (sEndsWith nm (str ("/*")) = true →
        normalizePrefixMatch nm = sDropLast nm) := by
  refine ⟨rfl, ?_, ?_, rfl, rfl, rfl, rfl, normalize_endsWith_slash nm, ?_⟩
  · intro k hk
    show mapGet (s.loggers.map (fun e =>
        if sStartsWith e.1 (normalizePrefixMatch nm) then
          (e.1, { e.2 with level := L }) else e)) k = _
    rw [mapGet_map_keyCond s.loggers k
        (fun x => sStartsWith x (normalizePrefixMatch nm))
        (fun lg => { lg with level := L }), hk]
    simp
  · intro k hk
    show mapGet (s.loggers.map (fun e =>
        if sStartsWith e.1 (normalizePrefixMatch nm) then
          (e.1, { e.2 with level := L }) else e)) k = _
    rw [mapGet_map_keyCond s.loggers k
        (fun x => sStartsWith x (normalizePrefixMatch nm))
        (fun lg => { lg with level := L }), hk]
    simp
  · intro h1
    unfold normalizePrefixMatch
    rw [if_pos h1]

/-- Witness for the C6 theorem at a concrete prefix. -/
theorem c6_witness :
    sEndsWith (normalizePrefixMatch (str ("svc/*"))) (str ("/")) = true :=
  (c6_setChildrenLevel_frame devNoNs (str ("svc/*"))
    (str ("warn"))).2.2.2.2.2.2.2.1

/-! ### Claim C7 -/

/-- Claim C7 (confirmed): in the production manager, `addLevelMapping`,
`setLevel` and `setChildrenLevel` are total (they cannot throw), leave the
default level, root sink and identity counter unchanged, each append exactly
one warn record carrying the identity of the root sink (the shared output
channel), and `setChildrenLevel` returns the sentinel `-1`. -/
theorem c7_live_mutations_rejected (s : LiveState) :
    (liveSetLevel s).defaultLevel = s.defaultLevel
    ∧ (liveSetLevel s).rootLogger = s.rootLogger
    ∧ (liveSetLevel s).nextId = s.nextId
    ∧ (liveSetLevel s).warnEvents = s.warnEvents ++
        [(s.rootLogger.id,
          str ("Unexpected LoggerFactory setting - setLevel is not supported for LIVE loggers"))]
    ∧ (liveAddLevelMapping s).defaultLevel = s.defaultLevel
    ∧ (liveAddLevelMapping s).rootLogger = s.rootLogger
    ∧ (liveAddLevelMapping s).nextId = s.nextId
    ∧ (liveAddLevelMapping s).warnEvents = s.warnEvents ++
        [(s.rootLogger.id,
          str ("Unexpected LoggerFactory setting - addLevelMapping is not supported for LIVE loggers"))]
    ∧ (liveSetChildrenLevel s).1.defaultLevel = s.defaultLevel
    ∧ (liveSetChildrenLevel s).1.rootLogger = s.rootLogger
    ∧ (liveSetChildrenLevel s).1.nextId = s.nextId
    ∧ (liveSetChildrenLevel s).1.warnEvents = s.warnEvents ++
        [(s.rootLogger.id,
          str ("Unexpected LoggerFactory setting - setLevelCascade is not supported for LIVE loggers"))]
    ∧ (liveSetChildrenLevel s).2 = -1 :=
  ⟨rfl, rfl, rfl, rfl, rfl, rfl, rfl, rfl, rfl, rfl, rfl, rfl, rfl⟩

/-- Witness for the C7 theorem at a concrete production manager state. -/
theorem c7_witness : (liveSetChildrenLevel (mkLive (str ("info")))).2 = -1 :=
  (c7_live_mutations_rejected
    (mkLive (str ("info")))).2.2.2.2.2.2.2.2.2.2.2.2

/-! ### Claim C8 -/

/-- Claim C8 (confirmed): the effective level of a freshly created dev
logger is, in decreasing precedence, the explicit `opts.level`, the level of
a mapping matching the qualified name, and the process default. -/
theorem c8_level_precedence
    (s : DevState) (pk : Option Str) (n : Str) (r : Option (List Str))
    (L lx : Str) (hL : L ≠ []) (hlx : lx ≠ []) :
    (findMappingLevel s.levelMappings (qualifiedName s.enablePkgNs pk n) = none →
      (create s pk n { level := none, redact := r }).logger.level
        = s.defaultLevel)
    ∧ (findMappingLevel s.levelMappings (qualifiedName s.enablePkgNs pk n) = some L →
      (create s pk n { level := none, redact := r }).logger.level = L)
    ∧ (create s pk n { level := some lx, redact := r }).logger.level = lx := by
  have h1 := (create_spec s pk n { level := none, redact := r }).2.1
  have h2 := (create_spec s pk n { level := some lx, redact := r }).2.1
  refine ⟨?_, ?_, ?_⟩
  · intro hf
    rw [h1, hf]
    rfl
  · intro hf
    rw [h1, hf]
    show jsOr (some L) _ = L
    exact jsOr_some L _ hL
  · rw [h2]
    show jsOr (some lx) _ = lx
    exact jsOr_some lx _ hlx

/-- Witness for the C8 theorem: explicit level wins over a registered
matching mapping at a concrete state. -/
theorem c8_witness :
    (create (addLevelMapping devNoNs (str ("a")) (str ("warn"))) none (str ("a"))
        { level := some (str ("error")), redact := none }).logger.level
      = str ("error") :=
  (c8_level_precedence (addLevelMapping devNoNs (str ("a")) (str ("warn")))
    none (str ("a")) none (str ("warn")) (str ("error"))
    (by decide) (by decide)).2.2

/-! ### Claim C9 -/

/-- Claim C9 (confirmed): two successive `create` calls registering the same
qualified name leave exactly one registry entry under that name, the lookup
returns the handle of the second call, and key uniqueness of the registry
table is preserved. -/
theorem c9_registry_unique_overwrite
    (s : DevState) (pk : Option Str) (n : Str) (o1 o2 : CreateOpts)
    (hnd : (keys s.loggers).Nodup) :
    ((create (create s pk n o1).state pk n o2).state.loggers.filter
        (fun e => e.1 == qualifiedName s.enablePkgNs pk n)).length = 1
    ∧ mapGet (create (create s pk n o1).state pk n o2).state.loggers
        (qualifiedName s.enablePkgNs pk n)
        = some (create (create s pk n o1).state pk n o2).logger
    ∧ (keys (create (create s pk n o1).state pk n o2).state.loggers).Nodup := by
  have hflag : (create s pk n o1).state.enablePkgNs = s.enablePkgNs :=
    (create_spec s pk n o1).2.2.2.2.2.1
  have hget := (create_spec (create s pk n o1).state pk n o2).2.2.2.2.2.2.2
  rw [hflag] at hget
  have hnd2 := create_nodup (create s pk n o1).state pk n o2
    (create_nodup s pk n o1 hnd)
  exact ⟨filter_keyEq_length_one _ _ hnd2
      (mem_keys_of_mapGet _ _ _ hget), hget, hnd2⟩

/-- Witness for the C9 theorem at a concrete manager state. -/
theorem c9_witness :
    mapGet (create (create devNoNs none (str ("a")) ⟨none, none⟩).state
        none (str ("a")) ⟨some (str ("debug")), none⟩).state.loggers
        (qualifiedName devNoNs.enablePkgNs none (str ("a")))
      = some (create (create devNoNs none (str ("a")) ⟨none, none⟩).state
          none (str ("a")) ⟨some (str ("debug")), none⟩).logger :=
  (c9_registry_unique_overwrite devNoNs none (str ("a")) ⟨none, none⟩
    ⟨some (str ("debug")), none⟩ (by decide)).2.1

/-! ### Claim C10 -/

/-- Claim C10 (confirmed): when the resolved calling-package name is scoped
(starts with an at-sign and contains a slash), the namespace prefix used for
the qualified logger name is the part after the first slash with remaining
slashes replaced by underscores; for example `@scope/pkg` yields qualified
names of the form `pkg/<name>`. -/
theorem c10_scoped_package_transform
    (s : DevState) (p0 n : Str) (o : CreateOpts)
    (hauto : s.enablePkgNs = true)
    (hat : sStartsWith p0 (str ("@")) = true)
    (hsl : p0.contains '/' = true)
    (hne : slashesToUnderscores (afterFirstSlash p0) ≠ []) :
    (create s (some p0) n o).logger.name
      = slashesToUnderscores (afterFirstSlash p0) ++ str ("/") ++ n := by
  have hr : resolvedPkgName (some p0)
      = some (slashesToUnderscores (afterFirstSlash p0)) := by
    have hmem : '/' ∈ p0 := by simpa using hsl
    simp [resolvedPkgName, hat, hmem, hne]
  have h := (create_spec s (some p0) n o).1
  rw [h]
  unfold qualifiedName
  rw [hauto, hr]
  rfl

/-- Witness for the C10 theorem: a package named `@scope/pkg` produces the
qualified name `pkg/app`. -/
theorem c10_witness :
    (create devNs (some (str ("@scope/pkg"))) (str ("app"))
        ⟨none, none⟩).logger.name
      = slashesToUnderscores (afterFirstSlash (str ("@scope/pkg")))
          ++ str ("/") ++ str ("app") :=
  c10_scoped_package_transform devNs (str ("@scope/pkg")) (str ("app"))
    ⟨none, none⟩ (by decide) (by decide) (by decide) (by decide)

end LoggingLib
